import Mathlib

/-!
Verification of the domain reconnaissance service (`server.js` family).

The development shallowly embeds the pure core of the scanner: the hostname
normaliser, the seen-domain bookkeeping and tracker filter, the redirect-chain
reconstruction, the in-context redirect limiter, the result cache, and the
orchestrator branching of `scanDomainOnce` together with the `/domains`
response construction.  External library calls (`new URL(...)`, the WHATWG
hostname parser, and `punycode.toASCII`) are taken as function parameters of
type `String → Except Unit String`, where an `.error` value models the call
throwing; concrete stand-ins faithful to the library behaviour on the inputs
used are provided for evaluation.  Two source variants are embedded where they
differ: the canonical server (suffix `_v2`) and the hardened server
(suffix `_v3`).
-/

/-- Default of the MAX_REDIRECT_STEPS environment variable. -/
def MAX_REDIRECT_STEPS : Nat := 20

/-- Default of the CACHE_TTL_SECONDS environment variable. -/
def CACHE_TTL_SECONDS : Nat := 21600

/-- Default of the MAX_REDIRECT_LOG environment variable (hardened variant). -/
def MAX_REDIRECT_LOG : Nat := 50

/-- Default of the PRECHECK_MAX_REDIRECTS environment variable. -/
def PRECHECK_MAX_REDIRECTS : Nat := 15

/-- Models the ASCII whitespace stripped by String.prototype.trim. -/
def isJsSpaceChar (c : Char) : Bool :=
  c = ' ' || c = '\t' || c = '\n' || c = '\r'

/-- Models String.prototype.trim (list-level, so evaluation stays in the kernel). -/
def jsTrim (s : String) : String :=
  String.mk (((s.data.dropWhile isJsSpaceChar).reverse.dropWhile isJsSpaceChar).reverse)

/-- The uppercase-to-lowercase table of String.prototype.toLowerCase on the
ASCII range.  Hostnames handled by the service are ASCII, so this fragment is
the behaviour the code exercises. -/
def lowerPairs : List (Char × Char) :=
  [('A', 'a'), ('B', 'b'), ('C', 'c'), ('D', 'd'), ('E', 'e'), ('F', 'f'), ('G', 'g'),
   ('H', 'h'), ('I', 'i'), ('J', 'j'), ('K', 'k'), ('L', 'l'), ('M', 'm'), ('N', 'n'),
   ('O', 'o'), ('P', 'p'), ('Q', 'q'), ('R', 'r'), ('S', 's'), ('T', 't'), ('U', 'u'),
   ('V', 'v'), ('W', 'w'), ('X', 'x'), ('Y', 'y'), ('Z', 'z')]

/-- Models String.prototype.toLowerCase on a single character (ASCII range):
uppercase ASCII letters map to their lowercase counterparts, every other
character is kept. -/
def jsLowerChar (c : Char) : Char :=
  match lowerPairs.lookup c with
  | some d => d
  | none => c

/-- Models String.prototype.toLowerCase (ASCII fragment), character by character. -/
def jsLower (s : String) : String :=
  String.mk (s.data.map jsLowerChar)

/-- A string is lowercase when String.prototype.toLowerCase fixes it. -/
def noUpper (s : String) : Prop := jsLower s = s

/-- Models String.prototype.startsWith with a literal argument. -/
def strIsPrefixOf (p s : String) : Bool := p.data.isPrefixOf s.data

/-- Character-count drop on a string (the strings involved are ASCII, so
character positions and JS string indices agree). -/
def strDropChars (n : Nat) (s : String) : String := String.mk (s.data.drop n)

/-- Contiguous substring test on character lists, by scanning every suffix. -/
def listContains (sub : List Char) : List Char → Bool
  | [] => sub.isEmpty
  | c :: cs => sub.isPrefixOf (c :: cs) || listContains sub cs

/-- Models String.prototype.includes: contiguous substring test. -/
def jsIncludes (s sub : String) : Bool := listContains sub.data s.data

/-- Truthiness of a JS string-or-null value: null and the empty string are falsy. -/
def jsTruthy (o : Option String) : Bool :=
  match o with
  | some s => !(s == "")
  | none => false

/-- Models the JS expression x || '' for a string-or-null x. -/
def jsOrEmpty (o : Option String) : String :=
  match o with
  | some s => s
  | none => ""

/-- Models the JS expression x || d for a string-or-null x and a string default d. -/
def jsOrStr (o : Option String) (d : String) : String :=
  match o with
  | some s => if s = "" then d else s
  | none => d

/-- Models the JS expression s || null for a string s. -/
def jsOrNullStr (s : String) : Option String :=
  if s = "" then none else some s

/-- Models the JS expression x || null for a string-or-null x. -/
def jsOrNull (o : Option String) : Option String :=
  match o with
  | some s => jsOrNullStr s
  | none => none

/-- A JS value as received from req.query: a string or some non-string value. -/
inductive JsVal where
  | str (s : String)
  | num (n : Int)
  | boolean (b : Bool)
  | nullV
  | undefinedV

/-- Models a JS try/catch block whose body may throw: an `.error` body value
transfers control to the handler. -/
def jsTry {α : Type} (body : Except Unit α) (handler : Unit → Except Unit α) : Except Unit α :=
  match body with
  | .ok a => .ok a
  | .error u => handler u

/-- Models the regex test for a leading http:// or https:// scheme applied by
normalizeDomain (the input is already lowercased when tested). -/
def hasHttpScheme (s : String) : Bool :=
  strIsPrefixOf ("http://") s || strIsPrefixOf ("https://") s

/-- The URL string normalizeDomain hands to the URL constructor: the input
itself when it carries an http(s) scheme, otherwise https:// prepended. -/
def withScheme (s : String) : String :=
  if hasHttpScheme s then s else ("https://") ++ s

/-- Embeds normalizeDomain of the canonical server (part_002 lines 67 to 76).
The parameters uh and ta model new URL(x).hostname and punycode.toASCII; an
`.error` result models the library call throwing.  Note the absence of any
length check on the encoded hostname. -/
def normalizeDomain_v2 (uh ta : String → Except Unit String) (input : JsVal) :
    Except Unit (Option String) :=
  match input with
  | .str s0 =>
    if s0 = "" then .ok none
    else
      let s := jsLower (jsTrim s0)
      jsTry
        (do
          let host ← uh (withScheme s)
          let a ← ta host
          pure (jsOrNullStr a))
        (fun _ => jsTry (do let a ← ta s; pure (jsOrNullStr a)) (fun _ => .ok none))
  | _ => .ok none

/-- Embeds normalizeDomain of the hardened server (part_003 lines 42 to 63).
Its URL branch additionally rejects encoded hostnames longer than 253
characters; its raw-host fallback branch does not. -/
def normalizeDomain_v3 (uh ta : String → Except Unit String) (input : JsVal) :
    Except Unit (Option String) :=
  match input with
  | .str s0 =>
    if s0 = "" then .ok none
    else
      let s := jsLower (jsTrim s0)
      jsTry
        (do
          let host ← uh (withScheme s)
          let ascii ← ta host
          pure (if ascii = "" || decide (253 < ascii.length) then none else some ascii))
        (fun _ => jsTry (do let ascii ← ta s; pure (jsOrNullStr ascii)) (fun _ => .ok none))
  | _ => .ok none

/-- Embeds extractDomain of the canonical server: new URL(url).hostname
lowercased, null when the URL constructor throws. -/
def extractDomain (uh : String → Except Unit String) (url : String) : Option String :=
  match uh url with
  | .ok h => some (jsLower h)
  | .error _ => none

/-- Concrete stand-in for new URL(u).hostname on plain http(s) URLs: strips the
scheme and takes the host up to the first slash, colon, question mark or hash,
erring otherwise exactly as the URL constructor throws on scheme-less input.
It agrees with the WHATWG parser on every URL it is evaluated at in this file. -/
def hostOfHttpsUrl (s : String) : Except Unit String :=
  let rest :=
    if strIsPrefixOf ("https://") s then some (strDropChars 8 s)
    else if strIsPrefixOf ("http://") s then some (strDropChars 7 s)
    else none
  match rest with
  | none => .error ()
  | some r =>
    let host := String.mk (r.data.takeWhile (fun c => !(c = '/' || c = ':' || c = '?' || c = '#')))
    if host = "" then .error () else .ok host

/-- Concrete stand-in for punycode.toASCII on all-ASCII input, where the
encoder returns its argument unchanged (ASCII labels are not re-encoded). -/
def toASCIIAscii (s : String) : Except Unit String := .ok s

/-- Lexicographic less-or-equal on character lists: the order by which
Array.prototype.sort compares strings (code-unit comparison; code units and
code points agree on the hostnames involved). -/
def charListLe : List Char → List Char → Bool
  | [], _ => true
  | _ :: _, [] => false
  | a :: as, b :: bs => if a < b then true else if b < a then false else charListLe as bs

/-- Strict lexicographic order on character lists. -/
def charListLt : List Char → List Char → Bool
  | [], [] => false
  | [], _ :: _ => true
  | _ :: _, [] => false
  | a :: as, b :: bs => if a < b then true else if b < a then false else charListLt as bs

/-- The string comparison of the default Array.prototype.sort comparator. -/
def jsLeStr (a b : String) : Bool := charListLe a.data b.data

/-- Strict version of the sort comparator: a sorts strictly before b. -/
def jsLtStr (a b : String) : Bool := charListLt a.data b.data

/-- The tracker filter applied to observed hostnames:
!d.includes('doubleclick') && !d.includes('google'). -/
def trackerFree (d : String) : Bool :=
  !(jsIncludes d ("doubleclick")) && !(jsIncludes d ("google"))

/-- The seenDomains set of a scan, as the deduplicated list of hostnames
extracted from the URLs of the observed request and response events. -/
def seenDomainsOf (uh : String → Except Unit String) (events : List String) : List String :=
  (events.filterMap (extractDomain uh)).dedup

/-- The relatedDomains list computed on the success path of scanWithBrowser:
Array.from(seenDomains).filter(tracker filter).sort(). -/
def relatedDomainsOf (uh : String → Except Unit String) (events : List String) : List String :=
  List.insertionSort (fun a b => jsLeStr a b = true)
    ((seenDomainsOf uh events).filter trackerFree)

/-- The relatedDomains list after scanDomainOnce's origin fix-up: the origin
domain is unshifted onto the front when the filtered sorted list misses it. -/
def scanOnceRelated (uh : String → Except Unit String) (events : List String)
    (origin : String) : List String :=
  let rel := relatedDomainsOf uh events
  if origin ∈ rel then rel else origin :: rel

/-- A browser request together with its redirectedFrom ancestry, as walked by
buildRedirectChainForResponse. -/
inductive Req where
  | root (url : String) (resourceType : String)
  | redirected (url : String) (resourceType : String) (prev : Req)

/-- The url() accessor of a request. -/
def Req.url : Req → String
  | .root u _ => u
  | .redirected u _ _ => u

/-- The resourceType() accessor of a request. -/
def Req.resourceType : Req → String
  | .root _ t => t
  | .redirected _ t _ => t

/-- The redirectedFrom() accessor of a request. -/
def Req.redirectedFrom : Req → Option Req
  | .root _ _ => none
  | .redirected _ _ p => some p

/-- One entry of the redirect chain: {from, to, status}. -/
structure RedirectStep where
  fromUrl : String
  toUrl : String
  status : Nat
deriving DecidableEq, Repr

/-- The while loop of buildRedirectChainForResponse: pushes {from, to, status}
entries while walking redirectedFrom, stopping once maxLen entries are
accumulated; the result is in push order (latest hop first). -/
def buildChainAux : Req → String → Nat → Nat → Nat → List RedirectStep
  | .root u _, toUrl, status, _maxLen, _len =>
    [{ fromUrl := u, toUrl := toUrl, status := status }]
  | .redirected u _ p, toUrl, status, maxLen, len =>
    if maxLen ≤ len + 1 then [{ fromUrl := u, toUrl := toUrl, status := status }]
    else { fromUrl := u, toUrl := toUrl, status := status } :: buildChainAux p u status maxLen (len + 1)

/-- Embeds buildRedirectChainForResponse without the resourceType guard: the
redirectedFrom walk of the response's request, reversed into earliest-first
order.  The response status is stamped on every entry of the piece. -/
def buildChainBase (req : Req) (status : Nat) (maxLen : Nat) : List RedirectStep :=
  match req with
  | .root _ _ => []
  | .redirected u _ p => (buildChainAux p u status maxLen 0).reverse

/-- Embeds buildRedirectChainForResponse of the canonical server, called with
maxLen = MAX_REDIRECT_STEPS + 5 and guarded on resource type document. -/
def buildChain_v2 (req : Req) (status : Nat) : List RedirectStep :=
  if req.resourceType = "document" then buildChainBase req status (MAX_REDIRECT_STEPS + 5)
  else []

/-- Embeds buildRedirectChainForResponse of the hardened server, capped at
MAX_REDIRECT_LOG and with no resource-type guard of its own. -/
def buildChain_v3 (req : Req) (status : Nat) : List RedirectStep :=
  buildChainBase req status MAX_REDIRECT_LOG

/-- A response event as seen by the page.on('response') handler. -/
structure RespEvent where
  req : Req
  status : Nat

/-- The redirect-chain bookkeeping of the canonical server's response handler:
document 3xx responses contribute their reconstructed piece, appended to the
log with no deduplication. -/
def onRespLog_v2 (log : List RedirectStep) (e : RespEvent) : List RedirectStep :=
  if 300 ≤ e.status ∧ e.status < 400 ∧ e.req.resourceType = "document" then
    log ++ buildChain_v2 e.req e.status
  else log

/-- The redirectLog accumulated by the canonical server over a scan's
response events. -/
def redirectLog_v2 (events : List RespEvent) : List RedirectStep :=
  events.foldl onRespLog_v2 []

/-- The success-path chain of the canonical scanWithBrowser: the accumulated
log when its length stays within MAX_REDIRECT_STEPS, and a failure (thrown
"Too many redirects") otherwise. -/
def scanChain_v2 (events : List RespEvent) : Option (List RedirectStep) :=
  let log := redirectLog_v2 events
  if MAX_REDIRECT_STEPS < log.length then none else some log

/-- The from|to key used by the hardened server's seenPairs set. -/
def stepKey (p : RedirectStep) : String := p.fromUrl ++ ("|") ++ p.toUrl

/-- Connectivity of a redirect chain: every step's to URL equals the next
step's from URL. -/
def chainConnected : List RedirectStep → Bool
  | [] => true
  | [_] => true
  | a :: b :: rest => (a.toUrl == b.fromUrl) && chainConnected (b :: rest)

/-- The inner for loop of the hardened response handler: pushes the entries of
one piece, breaking at MAX_REDIRECT_LOG and skipping already-seen
(from, to) pairs. -/
def pushPiece : List RedirectStep → List String → List RedirectStep →
    List RedirectStep × List String
  | log, seen, [] => (log, seen)
  | log, seen, p :: rest =>
    if MAX_REDIRECT_LOG ≤ log.length then (log, seen)
    else if stepKey p ∈ seen then pushPiece log seen rest
    else pushPiece (log ++ [p]) (stepKey p :: seen) rest

/-- The redirect-chain bookkeeping of the hardened server's response handler:
all 3xx responses contribute a piece, filtered through the seenPairs set. -/
def onRespLog_v3 (st : List RedirectStep × List String) (e : RespEvent) :
    List RedirectStep × List String :=
  if 300 ≤ e.status ∧ e.status < 400 then pushPiece st.1 st.2 (buildChain_v3 e.req e.status)
  else st

/-- The redirectLog accumulated by the hardened server over a scan's
response events. -/
def redirectLog_v3 (events : List RespEvent) : List RedirectStep :=
  (events.foldl onRespLog_v3 ([], [])).1

/-- A response as returned by route.fetch or page.goto. -/
structure FetchedResponse where
  status : Nat
deriving DecidableEq, Repr

/-- The action the route handler takes on a request. -/
inductive RouteAction where
  | fulfillResponse (resp : FetchedResponse)
  | fulfill (status : Nat) (body : String)
  | continueRoute
deriving DecidableEq, Repr

/-- Embeds the context.route('**') handler of the canonical server: a request
that is both a document and a navigation request is re-fetched with
maxRedirects = MAX_REDIRECT_STEPS (fetchRoute receives that bound); when the
fetch throws, the route is fulfilled with a synthetic 508; every other request
is continued unmodified. -/
def routeHandler (fetchRoute : Nat → Except Unit FetchedResponse) (isDoc isNav : Bool) :
    RouteAction :=
  if isDoc && isNav then
    match fetchRoute MAX_REDIRECT_STEPS with
    | .ok r => .fulfillResponse r
    | .error _ => .fulfill 508 ("Loop Detected: too many redirects")
  else .continueRoute

/-- The error message thrown when the navigation response carries the 508
sentinel: the template interpolates MAX_REDIRECT_STEPS. -/
def tooManyRedirectsMsg : String :=
  ("Too many redirects (") ++ toString MAX_REDIRECT_STEPS ++ (")")

/-- Embeds the navigation-response check of scanWithBrowser: a navigation
response with status 508 turns into a thrown "Too many redirects" error. -/
def checkNavResponse (response : Option FetchedResponse) : Except String Unit :=
  match response with
  | some r => if r.status = 508 then .error tooManyRedirectsMsg else .ok ()
  | none => .ok ()

/-- The result argument handed to putToCache. -/
structure CacheInput where
  relatedDomains : List String
  finalUrl : Option String
  redirectChain : List RedirectStep
deriving DecidableEq, Repr

/-- One row of the domain_cache table.  The JSON text columns are modelled by
the values they encode: JSON.stringify and JSON.parse are mutually inverse on
arrays of strings and arrays of {from, to, status} records, so the
parse-failure branch of getFromCache is unreachable in the model. -/
structure CacheRow where
  result_json : List String
  final_url : Option String
  redirect_chain_json : Option (List RedirectStep)
  updated_at : Nat
  ttl_at : Nat
deriving DecidableEq, Repr

/-- The record getFromCache returns on a live hit. -/
structure CacheOut where
  relatedDomains : List String
  finalUrl : Option String
  redirectChain : List RedirectStep
  cached : Bool
  cachedAt : Nat
  ttlAt : Nat
deriving DecidableEq, Repr

/-- Embeds putToCache: upserts the row keyed by the domain, stamping
updated_at = now and ttl_at = now + CACHE_TTL_SECONDS; finalUrl passes through
the JS coercion result.finalUrl || null. -/
def putToCache (db : String → Option CacheRow) (domain : String) (result : CacheInput)
    (now : Nat) : String → Option CacheRow :=
  fun d =>
    if d = domain then
      some { result_json := result.relatedDomains
           , final_url := jsOrNull result.finalUrl
           , redirect_chain_json := some result.redirectChain
           , updated_at := now
           , ttl_at := now + CACHE_TTL_SECONDS }
    else db d

/-- Embeds getFromCache: a missing row or a row with ttl_at ≤ now is a miss;
a live row is decoded, with final_url passed through row.final_url || null and
a null redirect_chain_json column decoded to the empty chain. -/
def getFromCache (db : String → Option CacheRow) (domain : String) (now : Nat) :
    Option CacheOut :=
  match db domain with
  | none => none
  | some row =>
    if now < row.ttl_at then
      some { relatedDomains := row.result_json
           , finalUrl := jsOrNull row.final_url
           , redirectChain := match row.redirect_chain_json with | some c => c | none => []
           , cached := true
           , cachedAt := row.updated_at
           , ttlAt := row.ttl_at }
    else none

/-- The classification record returned by precheckFollowManually. -/
structure PrecheckResult where
  skip : Bool
  reason : Option String
  tryBrowser : Bool
  finalUrl : Option String
deriving DecidableEq, Repr

/-- The record a successful scanWithBrowser resolves with. -/
structure BrowserResult where
  finalUrl : String
  relatedDomains : List String
  redirectChain : List RedirectStep
deriving DecidableEq, Repr

/-- The record scanDomainOnce returns: a browser result, or an origin-only
fallback tagged with the precheck reason. -/
structure ScanResultR where
  finalUrl : Option String
  relatedDomains : List String
  redirectChain : List RedirectStep
  precheck : Option String
deriving DecidableEq, Repr

/-- Embeds scanDomainOnce of the canonical server, parameterised by the
already-computed precheck classification and by the browser scan as a function
of the start URL (an `.error` models scanWithBrowser throwing).  The first
component records whether scanWithBrowser was invoked.  Note that
pre.tryBrowser is never consulted: the code only logs it before falling
through to the browser scan unconditionally. -/
def scanDomainOnce (originDomain : String) (pre : PrecheckResult)
    (browserScan : String → Except String BrowserResult) : Bool × ScanResultR :=
  let startUrl := ("https://") ++ originDomain
  if pre.skip = true ∧ (pre.reason = some ("attachment") ∨
      strIsPrefixOf ("non-HTML") (jsOrEmpty pre.reason) = true) then
    (false, { finalUrl := some (jsOrStr pre.finalUrl startUrl)
            , relatedDomains := [originDomain]
            , redirectChain := []
            , precheck := pre.reason })
  else
    let targetUrl :=
      if pre.skip = true ∧ strIsPrefixOf ("marketing-redirect") (jsOrEmpty pre.reason) = true ∧
          jsTruthy pre.finalUrl = true then jsOrEmpty pre.finalUrl
      else startUrl
    match browserScan targetUrl with
    | .ok r =>
      (true, { finalUrl := some r.finalUrl
             , relatedDomains :=
                 if originDomain ∈ r.relatedDomains then r.relatedDomains
                 else originDomain :: r.relatedDomains
             , redirectChain := r.redirectChain
             , precheck := none })
    | .error _ =>
      (true, { finalUrl := some targetUrl
             , relatedDomains := [originDomain]
             , redirectChain := []
             , precheck := some (jsOrStr pre.reason ("blocked")) })

/-- The JSON body of a 200 response of the /domains handler. -/
structure DomainsResponse where
  domain : String
  finalUrl : Option String
  relatedDomains : List String
  redirectChain : List RedirectStep
  cached : Bool
  status : String
  note : Option String
  reason : Option String
deriving DecidableEq, Repr

/-- Embeds the response construction of the /domains handler after
scanDomainOnce returns: a truthy precheck tag yields the origin-only payload
(with the marketing-redirect note attached exactly when the tag starts with
marketing-redirect), while an untagged result yields the plain ok payload. -/
def respondScan (domain : String) (result : ScanResultR) : DomainsResponse :=
  if jsTruthy result.precheck = true then
    let p := jsOrEmpty result.precheck
    if strIsPrefixOf ("marketing-redirect") p = true then
      { domain := domain
      , finalUrl := some (jsOrStr result.finalUrl (("https://") ++ domain))
      , relatedDomains := [domain]
      , redirectChain := []
      , cached := false
      , status := "ok"
      , note := some p
      , reason := none }
    else
      { domain := domain
      , finalUrl := some (jsOrStr result.finalUrl (("https://") ++ domain))
      , relatedDomains := [domain]
      , redirectChain := []
      , cached := false
      , status := if p = "forbidden" ∨ p = "blocked" then "blocked" else "skipped"
      , note := none
      , reason := some p }
  else
    { domain := domain
    , finalUrl := result.finalUrl
    , relatedDomains := result.relatedDomains
    , redirectChain := result.redirectChain
    , cached := false
    , status := "ok"
    , note := none
    , reason := none }

/-! Ordering facts for the sort comparator. -/

theorem charListLe_total : ∀ a b : List Char, charListLe a b = true ∨ charListLe b a = true
  | [], _ => Or.inl rfl
  | _ :: _, [] => Or.inr rfl
  | a :: as, b :: bs => by
    rcases lt_trichotomy a b with h | h | h
    · left; simp [charListLe, h]
    · subst h
      rcases charListLe_total as bs with ih | ih
      · left; simp [charListLe, lt_irrefl, ih]
      · right; simp [charListLe, lt_irrefl, ih]
    · right; simp [charListLe, h]

theorem charListLe_trans : ∀ a b c : List Char,
    charListLe a b = true → charListLe b c = true → charListLe a c = true
  | [], _, _, _, _ => rfl
  | _ :: _, [], _, h, _ => by simp [charListLe] at h
  | _ :: _, _ :: _, [], _, h => by simp [charListLe] at h
  | a :: as, b :: bs, c :: cs, hab, hbc => by
    simp only [charListLe] at hab hbc ⊢
    rcases lt_trichotomy a b with h1 | h1 | h1
    · rcases lt_trichotomy b c with h2 | h2 | h2
      · simp [lt_trans h1 h2]
      · subst h2; simp [h1]
      · simp [lt_asymm h2, h2] at hbc
    · subst h1
      rcases lt_trichotomy a c with h2 | h2 | h2
      · simp [h2]
      · subst h2
        simp only [lt_irrefl, if_neg (lt_irrefl a)] at hab hbc ⊢
        simp at hab hbc ⊢
        exact charListLe_trans as bs cs hab hbc
      · simp [lt_asymm h2, h2] at hbc
    · simp [lt_asymm h1, h1] at hab

theorem charListLe_antisymm : ∀ a b : List Char,
    charListLe a b = true → charListLe b a = true → a = b
  | [], [], _, _ => rfl
  | [], _ :: _, _, h => by simp [charListLe] at h
  | _ :: _, [], h, _ => by simp [charListLe] at h
  | a :: as, b :: bs, hab, hba => by
    rcases lt_trichotomy a b with h | h | h
    · simp [charListLe, h, lt_asymm h] at hba
    · subst h
      simp only [charListLe, lt_irrefl, if_neg (lt_irrefl a)] at hab hba
      simp at hab hba
      rw [charListLe_antisymm as bs hab hba]
    · simp [charListLe, h, lt_asymm h] at hab

theorem charListLt_iff : ∀ a b : List Char,
    charListLt a b = true ↔ (charListLe a b = true ∧ a ≠ b)
  | [], [] => by simp [charListLt, charListLe]
  | [], _ :: _ => by simp [charListLt, charListLe]
  | _ :: _, [] => by simp [charListLt, charListLe]
  | a :: as, b :: bs => by
    rcases lt_trichotomy a b with h | h | h
    · simp only [charListLt, charListLe, if_pos h]
      have : a ≠ b := ne_of_lt h
      simp [this]
    · subst h
      simp only [charListLt, charListLe, lt_irrefl, if_neg (lt_irrefl a)]
      simpa using charListLt_iff as bs
    · simp [charListLt, charListLe, if_neg (lt_asymm h), if_pos h, lt_asymm h]

instance : IsTotal String (fun a b => jsLeStr a b = true) :=
  ⟨fun a b => charListLe_total a.data b.data⟩

instance : IsTrans String (fun a b => jsLeStr a b = true) :=
  ⟨fun a b c => charListLe_trans a.data b.data c.data⟩

theorem jsLt_iff {a b : String} : jsLtStr a b = true ↔ (jsLeStr a b = true ∧ a ≠ b) := by
  rw [jsLtStr, jsLeStr, charListLt_iff]
  apply and_congr_right
  intro _
  constructor
  · intro h heq; exact h (by rw [heq])
  · intro h heq
    exact h (String.ext heq)

/-! Facts about the relatedDomains computation. -/

theorem base_nodup (uh : String → Except Unit String) (events : List String) :
    (relatedDomainsOf uh events).Nodup := by
  have h1 : ((seenDomainsOf uh events).filter trackerFree).Nodup :=
    (List.nodup_dedup _).filter _
  exact ((List.perm_insertionSort _ _).nodup_iff).mpr h1

theorem base_sorted (uh : String → Except Unit String) (events : List String) :
    List.Pairwise (fun a b => jsLtStr a b = true) (relatedDomainsOf uh events) := by
  have hs : List.Sorted (fun a b => jsLeStr a b = true) (relatedDomainsOf uh events) :=
    List.sorted_insertionSort _ _
  have hn := base_nodup uh events
  exact hs.imp₂ (fun a b hle hne => jsLt_iff.mpr ⟨hle, hne⟩) hn

theorem mem_base {uh : String → Except Unit String} {events : List String} {d : String}
    (h : d ∈ relatedDomainsOf uh events) : trackerFree d = true := by
  have h2 : d ∈ (seenDomainsOf uh events).filter trackerFree :=
    (List.mem_insertionSort _).mp h
  exact (List.mem_filter.mp h2).2

theorem mem_scanOnceRelated {uh : String → Except Unit String} {events : List String}
    {origin d : String} (hd : d ∈ scanOnceRelated uh events origin) :
    d = origin ∨ d ∈ relatedDomainsOf uh events := by
  simp only [scanOnceRelated] at hd
  by_cases h : origin ∈ relatedDomainsOf uh events
  · rw [if_pos h] at hd; exact Or.inr hd
  · rw [if_neg h] at hd
    rcases List.mem_cons.mp hd with h1 | h1
    · exact Or.inl h1
    · exact Or.inr h1

/-- C1: the origin domain is an element of relatedDomains, the list is
duplicate-free, and the filtered sorted list is strictly ascending in the
sort-comparator order; the whole result keeps that order exactly when the
origin survives the tracker filter, and otherwise equals the origin prepended
to the sorted list (the unshift of scanDomainOnce), which can break the global
ordering — see the counterexample. -/
theorem c1_origin_and_sortedness (uh : String → Except Unit String)
    (events : List String) (origin : String) :
    origin ∈ scanOnceRelated uh events origin ∧
    (scanOnceRelated uh events origin).Nodup ∧
    List.Pairwise (fun a b => jsLtStr a b = true) (relatedDomainsOf uh events) ∧
    (origin ∈ relatedDomainsOf uh events →
      scanOnceRelated uh events origin = relatedDomainsOf uh events) ∧
    (origin ∉ relatedDomainsOf uh events →
      scanOnceRelated uh events origin = origin :: relatedDomainsOf uh events) := by
  by_cases h : origin ∈ relatedDomainsOf uh events
  · refine ⟨?_, ?_, base_sorted uh events, fun _ => ?_, fun hc => absurd h hc⟩
    · simp [scanOnceRelated, h]
    · simpa [scanOnceRelated, h] using base_nodup uh events
    · simp [scanOnceRelated, h]
  · refine ⟨?_, ?_, base_sorted uh events, fun hc => absurd hc h, fun _ => ?_⟩
    · simp [scanOnceRelated, h]
    · simp only [scanOnceRelated, if_neg h]
      exact List.nodup_cons.mpr ⟨h, base_nodup uh events⟩
    · simp [scanOnceRelated, h]

/-- C1 witness: at a concrete scan whose filtered list misses the origin, the
theorem yields membership and the prepended shape. -/
theorem c1_witness :
    ("a.com" : String) ∈ scanOnceRelated hostOfHttpsUrl ["https://b.com/"] ("a.com") ∧
    scanOnceRelated hostOfHttpsUrl ["https://b.com/"] ("a.com") =
      "a.com" :: relatedDomainsOf hostOfHttpsUrl ["https://b.com/"] :=
  ⟨(c1_origin_and_sortedness hostOfHttpsUrl ["https://b.com/"] ("a.com")).1,
   (c1_origin_and_sortedness hostOfHttpsUrl ["https://b.com/"] ("a.com")).2.2.2.2 (by decide)⟩

/-- C1 counterexample: scanning origin google.com (filtered out as a tracker)
with a second observed host a.com yields ["google.com", "a.com"], which is not
strictly ascending, so the sortedness part of the claim fails on the code. -/
theorem c1_counterexample :
    scanOnceRelated hostOfHttpsUrl ["https://google.com/", "https://a.com/"] ("google.com") =
      ["google.com", "a.com"] ∧
    ¬ List.Pairwise (fun a b => jsLtStr a b = true)
      (scanOnceRelated hostOfHttpsUrl ["https://google.com/", "https://a.com/"]
        ("google.com")) := by
  decide

/-- C2: every element of relatedDomains except possibly the origin domain
itself is free of the doubleclick and google substrings; the prepended origin
is the one element the filter does not protect. -/
theorem c2_filter_except_origin (uh : String → Except Unit String)
    (events : List String) (origin : String) :
    ∀ d ∈ scanOnceRelated uh events origin,
      d = origin ∨ (jsIncludes d ("doubleclick") = false ∧ jsIncludes d ("google") = false) := by
  intro d hd
  rcases mem_scanOnceRelated hd with h | h
  · exact Or.inl h
  · right
    have h2 := mem_base h
    simp only [trackerFree, Bool.and_eq_true, Bool.not_eq_true'] at h2
    exact h2

/-- C2 witness: a concrete non-origin element of a scan result passes the
tracker filter. -/
theorem c2_witness :
    ("b.com" : String) = "a.com" ∨
    (jsIncludes ("b.com") ("doubleclick") = false ∧ jsIncludes ("b.com") ("google") = false) :=
  c2_filter_except_origin hostOfHttpsUrl ["https://b.com/"] ("a.com") "b.com" (by decide)

/-- C2 counterexample: with origin google.com the unshift of scanDomainOnce
puts a hostname containing google back into relatedDomains, so the claim that
no element contains the substring fails on the code. -/
theorem c2_counterexample :
    ("google.com" : String) ∈
      scanOnceRelated hostOfHttpsUrl ["https://google.com/", "https://a.com/"] ("google.com") ∧
    jsIncludes ("google.com") ("google") = true := by
  decide


theorem buildChainAux_status : ∀ (req : Req) (toUrl : String) (status maxLen len : Nat)
    (s : RedirectStep), s ∈ buildChainAux req toUrl status maxLen len → s.status = status
  | .root u t, toUrl, status, maxLen, len, s, hs => by
    simp only [buildChainAux, List.mem_singleton] at hs
    rw [hs]
  | .redirected u t p, toUrl, status, maxLen, len, s, hs => by
    simp only [buildChainAux] at hs
    split at hs
    · simp only [List.mem_singleton] at hs
      rw [hs]
    · rcases List.mem_cons.mp hs with h | h
      · rw [h]
      · exact buildChainAux_status p u status maxLen (len + 1) s h

theorem buildChainBase_status (req : Req) (status maxLen : Nat) (s : RedirectStep)
    (hs : s ∈ buildChainBase req status maxLen) : s.status = status := by
  cases req with
  | root u t => simp [buildChainBase] at hs
  | redirected u t p =>
    simp only [buildChainBase, List.mem_reverse] at hs
    exact buildChainAux_status p u status maxLen 0 s hs

theorem buildChain_v2_status (req : Req) (status : Nat) (s : RedirectStep)
    (hs : s ∈ buildChain_v2 req status) : s.status = status := by
  unfold buildChain_v2 at hs
  split at hs
  · exact buildChainBase_status _ _ _ _ hs
  · simp at hs

theorem foldl_v2_status : ∀ (events : List RespEvent) (acc : List RedirectStep),
    (∀ s ∈ acc, 300 ≤ s.status ∧ s.status < 400) →
    ∀ s ∈ events.foldl onRespLog_v2 acc, 300 ≤ s.status ∧ s.status < 400
  | [], _, hacc => by simpa using hacc
  | e :: es, acc, hacc => by
    rw [List.foldl_cons]
    apply foldl_v2_status es
    intro s hs
    by_cases hcond : 300 ≤ e.status ∧ e.status < 400 ∧ e.req.resourceType = "document"
    · simp only [onRespLog_v2, if_pos hcond] at hs
      rcases List.mem_append.mp hs with h1 | h1
      · exact hacc s h1
      · have h2 : s.status = e.status := buildChain_v2_status e.req e.status s h1
        rw [h2]
        exact ⟨hcond.1, hcond.2.1⟩
    · simp only [onRespLog_v2, if_neg hcond] at hs
      exact hacc s hs

theorem redirectLog_v2_status (events : List RespEvent) :
    ∀ s ∈ redirectLog_v2 events, 300 ≤ s.status ∧ s.status < 400 :=
  foldl_v2_status events [] (by simp)

theorem pushPiece_inv : ∀ (piece log : List RedirectStep) (seen : List String),
    (log.map stepKey).Nodup → (∀ p ∈ log, stepKey p ∈ seen) →
    ((pushPiece log seen piece).1.map stepKey).Nodup ∧
      (∀ p ∈ (pushPiece log seen piece).1, stepKey p ∈ (pushPiece log seen piece).2)
  | [], log, seen, hn, hsub => by
    simp only [pushPiece]
    exact ⟨hn, hsub⟩
  | p :: rest, log, seen, hn, hsub => by
    simp only [pushPiece]
    by_cases h1 : MAX_REDIRECT_LOG ≤ log.length
    · rw [if_pos h1]
      exact ⟨hn, hsub⟩
    · rw [if_neg h1]
      by_cases h2 : stepKey p ∈ seen
      · rw [if_pos h2]
        exact pushPiece_inv rest log seen hn hsub
      · rw [if_neg h2]
        apply pushPiece_inv rest
        · rw [List.map_append]
          refine List.nodup_append.mpr ⟨hn, List.nodup_singleton _, ?_⟩
          intro a ha hb
          simp only [List.map_cons, List.map_nil, List.mem_singleton] at hb
          rcases List.mem_map.mp ha with ⟨q, hq, hkq⟩
          apply h2
          rw [← hb, ← hkq]
          exact hsub q hq
        · intro q hq
          rcases List.mem_append.mp hq with hq1 | hq1
          · exact List.mem_cons_of_mem _ (hsub q hq1)
          · simp only [List.mem_singleton] at hq1
            rw [hq1]
            exact List.mem_cons_self _ _

theorem foldl_v3_inv : ∀ (events : List RespEvent) (st : List RedirectStep × List String),
    (st.1.map stepKey).Nodup → (∀ p ∈ st.1, stepKey p ∈ st.2) →
    (((events.foldl onRespLog_v3 st).1).map stepKey).Nodup
  | [], _, hn, _ => by simpa using hn
  | e :: es, st, hn, hsub => by
    rw [List.foldl_cons]
    by_cases hc : 300 ≤ e.status ∧ e.status < 400
    · simp only [onRespLog_v3, if_pos hc]
      have h := pushPiece_inv (buildChain_v3 e.req e.status) st.1 st.2 hn hsub
      exact foldl_v3_inv es _ h.1 h.2
    · simp only [onRespLog_v3, if_neg hc]
      exact foldl_v3_inv es st hn hsub

theorem redirectLog_v3_nodup (events : List RespEvent) :
    ((redirectLog_v3 events).map stepKey).Nodup := by
  unfold redirectLog_v3
  exact foldl_v3_inv events ([], []) (by simp) (by simp)

/-- C3: what survives of the chain invariants on the code.  For a successful
scan of the canonical server the chain length is bounded by
MAX_REDIRECT_STEPS and every step's status lies in the 3xx range; in the
hardened variant the accumulated log additionally never repeats a (from, to)
pair thanks to the seenPairs filter.  Connectivity of consecutive steps and
pair-uniqueness fail in the canonical variant (see the counterexample). -/
theorem c3_chain_properties (events events2 : List RespEvent) (chain : List RedirectStep)
    (h : scanChain_v2 events = some chain) :
    chain.length ≤ MAX_REDIRECT_STEPS ∧
    (∀ s ∈ chain, 300 ≤ s.status ∧ s.status < 400) ∧
    ((redirectLog_v3 events2).map stepKey).Nodup := by
  simp only [scanChain_v2] at h
  by_cases hl : MAX_REDIRECT_STEPS < (redirectLog_v2 events).length
  · rw [if_pos hl] at h
    cases h
  · rw [if_neg hl] at h
    injection h with h2
    subst h2
    exact ⟨by omega, redirectLog_v2_status events, redirectLog_v3_nodup events2⟩

/-- C3 counterexample: two document 3xx responses of one redirect walk
(a to b to c) make the canonical server log the pair (a, b) twice, so the
successful chain neither avoids repeated (from, to) pairs nor connects
consecutive steps, refuting those two conjuncts of the claim. -/
theorem c3_counterexample :
    scanChain_v2
      [ { req := .redirected "https://b.com/" "document" (.root "https://a.com/" "document")
        , status := 301 }
      , { req := .redirected "https://c.com/" "document"
            (.redirected "https://b.com/" "document" (.root "https://a.com/" "document"))
        , status := 301 } ] =
      some [ { fromUrl := "https://a.com/", toUrl := "https://b.com/", status := 301 }
           , { fromUrl := "https://a.com/", toUrl := "https://b.com/", status := 301 }
           , { fromUrl := "https://b.com/", toUrl := "https://c.com/", status := 301 } ] ∧
    ¬ (List.map stepKey
        [ { fromUrl := "https://a.com/", toUrl := "https://b.com/", status := 301 }
        , { fromUrl := "https://a.com/", toUrl := "https://b.com/", status := 301 }
        , { fromUrl := "https://b.com/", toUrl := "https://c.com/", status := 301 } ]).Nodup ∧
    chainConnected
        [ { fromUrl := "https://a.com/", toUrl := "https://b.com/", status := 301 }
        , { fromUrl := "https://a.com/", toUrl := "https://b.com/", status := 301 }
        , { fromUrl := "https://b.com/", toUrl := "https://c.com/", status := 301 } ] = false := by
  decide

/-- C3 witness: the amended properties evaluated at a one-hop scan. -/
theorem c3_witness :
    ([ { fromUrl := "https://a.com/", toUrl := "https://b.com/", status := 301 } ]
        : List RedirectStep).length ≤ MAX_REDIRECT_STEPS ∧
    (∀ s ∈ ([ { fromUrl := "https://a.com/", toUrl := "https://b.com/", status := 301 } ]
        : List RedirectStep), 300 ≤ s.status ∧ s.status < 400) ∧
    ((redirectLog_v3
        [ { req := .redirected "https://b.com/" "document" (.root "https://a.com/" "document")
          , status := 301 } ]).map stepKey).Nodup :=
  c3_chain_properties
    [ { req := .redirected "https://b.com/" "document" (.root "https://a.com/" "document")
      , status := 301 } ]
    [ { req := .redirected "https://b.com/" "document" (.root "https://a.com/" "document")
      , status := 301 } ]
    [ { fromUrl := "https://a.com/", toUrl := "https://b.com/", status := 301 } ]
    (by decide)

/-- C4: the route handler re-fetches document navigation requests with the
MAX_REDIRECT_STEPS bound and fulfills with the fetched response on success,
fulfills a synthetic 508 with the loop-detected body when the fetch throws
(as it does when the redirect limit is exceeded), continues every other
request, and the scan engine turns a 508 navigation response into the error
"Too many redirects (20)" with the interpolated MAX_REDIRECT_STEPS. -/
theorem c4_redirect_limiter (fetchRoute : Nat → Except Unit FetchedResponse)
    (isDoc isNav : Bool) (r : FetchedResponse) :
    (fetchRoute MAX_REDIRECT_STEPS = .ok r →
      routeHandler fetchRoute true true = .fulfillResponse r) ∧
    (fetchRoute MAX_REDIRECT_STEPS = .error () →
      routeHandler fetchRoute true true = .fulfill 508 ("Loop Detected: too many redirects")) ∧
    ((isDoc && isNav) = false → routeHandler fetchRoute isDoc isNav = .continueRoute) ∧
    (r.status = 508 → checkNavResponse (some r) = .error tooManyRedirectsMsg) ∧
    tooManyRedirectsMsg = "Too many redirects (20)" := by
  refine ⟨?_, ?_, ?_, ?_, by decide⟩
  · intro h
    simp [routeHandler, h]
  · intro h
    simp [routeHandler, h]
  · intro h
    simp [routeHandler, h]
  · intro h
    simp [checkNavResponse, h]

/-- C4 witness: the limiter and the engine check evaluated at a throwing fetch
client and at a concrete 508 response. -/
theorem c4_witness :
    routeHandler (fun _ => Except.error ()) true true =
      .fulfill 508 ("Loop Detected: too many redirects") ∧
    checkNavResponse (some { status := 508 }) = .error tooManyRedirectsMsg :=
  ⟨(c4_redirect_limiter (fun _ => Except.error ()) true true { status := 508 }).2.1 rfl,
   (c4_redirect_limiter (fun _ => Except.error ()) true true { status := 508 }).2.2.2.1 rfl⟩

theorem jsOrNull_eq_of_ne {o : Option String} (h : o ≠ some ("")) : jsOrNull o = o := by
  cases o with
  | none => rfl
  | some s =>
    have hs : ¬ s = "" := fun hs => h (by rw [hs])
    simp [jsOrNull, jsOrNullStr, hs]

/-- C6: amended cache round trip.  After putToCache(d, r) at time now, a
lookup strictly before ttl_at = now + CACHE_TTL_SECONDS returns exactly the
stored relatedDomains, finalUrl and redirectChain (provided finalUrl is not
the empty string, which the JS coercion finalUrl || null turns into null), and
a lookup at or after ttl_at misses. -/
theorem c6_cache_roundtrip (db : String → Option CacheRow) (domain : String)
    (r : CacheInput) (now now2 : Nat) (hf : r.finalUrl ≠ some ("")) :
    (now2 < now + CACHE_TTL_SECONDS →
      getFromCache (putToCache db domain r now) domain now2 =
        some { relatedDomains := r.relatedDomains
             , finalUrl := r.finalUrl
             , redirectChain := r.redirectChain
             , cached := true
             , cachedAt := now
             , ttlAt := now + CACHE_TTL_SECONDS }) ∧
    (now + CACHE_TTL_SECONDS ≤ now2 →
      getFromCache (putToCache db domain r now) domain now2 = none) := by
  have hrow : putToCache db domain r now domain =
      some { result_json := r.relatedDomains, final_url := jsOrNull r.finalUrl
           , redirect_chain_json := some r.redirectChain, updated_at := now
           , ttl_at := now + CACHE_TTL_SECONDS } := by
    simp [putToCache]
  constructor
  · intro hlt
    simp [getFromCache, hrow, hlt, jsOrNull_eq_of_ne hf]
  · intro hge
    simp [getFromCache, hrow, show ¬ now2 < now + CACHE_TTL_SECONDS by omega]

/-- C6 witness: a concrete write at time 0 read back at time 5 returns the
stored fields, with the hypotheses discharged by evaluation. -/
theorem c6_witness :
    getFromCache (putToCache (fun _ => none) ("a.com")
        { relatedDomains := ["a.com"], finalUrl := some ("https://a.com/")
        , redirectChain := [] } 0) ("a.com") 5 =
      some { relatedDomains := ["a.com"], finalUrl := some ("https://a.com/")
           , redirectChain := [], cached := true, cachedAt := 0
           , ttlAt := 0 + CACHE_TTL_SECONDS } :=
  (c6_cache_roundtrip (fun _ => none) ("a.com")
      { relatedDomains := ["a.com"], finalUrl := some ("https://a.com/"), redirectChain := [] }
      0 5 (by decide)).1 (by decide)

/-- C6 counterexample: storing a result whose finalUrl is the empty string and
reading it back while live yields finalUrl null, not the stored value, so the
round trip as claimed for every result fails on the code. -/
theorem c6_counterexample :
    getFromCache (putToCache (fun _ => none) ("a.com")
        { relatedDomains := [], finalUrl := some (""), redirectChain := [] } 0) ("a.com") 0 =
      some { relatedDomains := [], finalUrl := none, redirectChain := []
           , cached := true, cachedAt := 0, ttlAt := CACHE_TTL_SECONDS } ∧
    (some ("") : Option String) ≠ (none : Option String) := by
  decide

theorem strIsPrefixOf_head {p s : String} {c : Char} {cs : List Char}
    (hp : p.data = c :: cs) (h : strIsPrefixOf p s = true) : ∃ t, s.data = c :: t := by
  unfold strIsPrefixOf at h
  rw [hp] at h
  cases hs : s.data with
  | nil =>
    rw [hs] at h
    simp [List.isPrefixOf] at h
  | cons b bs =>
    rw [hs] at h
    simp only [List.isPrefixOf, Bool.and_eq_true, beq_iff_eq] at h
    exact ⟨bs, by rw [h.1]⟩

theorem marketing_reason_facts {rs : String}
    (h : strIsPrefixOf ("marketing-redirect") rs = true) :
    rs ≠ "attachment" ∧ strIsPrefixOf ("non-HTML") rs = false ∧ rs ≠ "" := by
  obtain ⟨t, ht⟩ :=
    @strIsPrefixOf_head ("marketing-redirect") rs 'm' (("arketing-redirect").data) rfl h
  refine ⟨?_, ?_, ?_⟩
  · intro heq
    rw [heq] at ht
    rw [show ("attachment").data = 'a' :: ("ttachment").data from rfl] at ht
    injection ht with h1 _
    exact absurd h1 (by decide)
  · cases hb : strIsPrefixOf ("non-HTML") rs
    · rfl
    · exfalso
      obtain ⟨t2, ht2⟩ := @strIsPrefixOf_head ("non-HTML") rs 'n' (("on-HTML").data) rfl hb
      rw [ht] at ht2
      injection ht2 with h1 _
      exact absurd h1 (by decide)
  · intro heq
    rw [heq] at ht
    exact absurd ht (by simp)

theorem https_ne_empty (o : String) : ("https://") ++ o ≠ "" := by
  intro h
  have h2 : (("https://") ++ o).data = ("").data := by rw [h]
  rw [String.data_append] at h2
  exact absurd h2 (by simp)

/-- C7: amended marketing-redirect behaviour.  When the precheck classifies
the target as marketing-redirect with resolved URL u, the orchestrator runs
the browser scan against u; on success the response has status ok and the
browser scan's final URL but carries no note (the success result has no
precheck tag, so the note branch of the handler is skipped); the
marketing-redirect note is attached, with status ok, origin-only
relatedDomains and finalUrl u, exactly when that browser scan fails. -/
theorem c7_marketing_redirect (origin u rs : String) (pre : PrecheckResult)
    (browserScan : String → Except String BrowserResult)
    (hskip : pre.skip = true) (hr : pre.reason = some rs)
    (hm : strIsPrefixOf ("marketing-redirect") rs = true)
    (hf : pre.finalUrl = some u) (hu : u ≠ "") :
    (∀ r, browserScan u = .ok r →
      respondScan origin (scanDomainOnce origin pre browserScan).2 =
        { domain := origin
        , finalUrl := some r.finalUrl
        , relatedDomains :=
            if origin ∈ r.relatedDomains then r.relatedDomains
            else origin :: r.relatedDomains
        , redirectChain := r.redirectChain
        , cached := false
        , status := "ok"
        , note := none
        , reason := none }) ∧
    (∀ e, browserScan u = .error e →
      respondScan origin (scanDomainOnce origin pre browserScan).2 =
        { domain := origin
        , finalUrl := some u
        , relatedDomains := [origin]
        , redirectChain := []
        , cached := false
        , status := "ok"
        , note := some rs
        , reason := none }) := by
  obtain ⟨hatt, hnon, hne⟩ := marketing_reason_facts hm
  have hcond1 : ¬ (pre.skip = true ∧ ((some rs : Option String) = some ("attachment") ∨
      strIsPrefixOf ("non-HTML") rs = true)) := by
    rintro ⟨_, h1 | h1⟩
    · injection h1 with h2
      exact hatt h2
    · rw [h1] at hnon
      cases hnon
  have hcond2 : pre.skip = true ∧
      strIsPrefixOf ("marketing-redirect") rs = true ∧ jsTruthy (some u) = true := by
    refine ⟨hskip, hm, ?_⟩
    simp [jsTruthy, hu]
  constructor
  · intro r hok
    simp only [scanDomainOnce, hr, hf, jsOrEmpty]
    rw [if_neg hcond1, if_pos hcond2, hok]
    simp [respondScan, jsTruthy]
  · intro e herr
    simp only [scanDomainOnce, hr, hf, jsOrEmpty]
    rw [if_neg hcond1, if_pos hcond2, herr]
    have hrs : jsOrStr (some rs) ("blocked") = rs := by
      simp [jsOrStr, hne]
    have htr : jsTruthy (some rs) = true := by
      simp [jsTruthy, hne]
    have huu : jsOrStr (some u) (("https://") ++ origin) = u := by
      simp [jsOrStr, hu]
    simp only [hrs]
    simp only [respondScan, htr, if_pos rfl, jsOrEmpty, hm, if_pos hm]
    simp [huu, hm]

/-- C7 witness: a concrete marketing-redirect precheck whose browser scan of
https://b.com/ succeeds, with every hypothesis discharged by evaluation. -/
theorem c7_witness :
    respondScan ("a.com")
      (scanDomainOnce ("a.com")
        { skip := true, reason := some ("marketing-redirect(https://b.com/)")
        , tryBrowser := false, finalUrl := some ("https://b.com/") }
        (fun _ => Except.ok
          { finalUrl := "https://b.com/", relatedDomains := ["a.com", "b.com"]
          , redirectChain := [] })).2 =
      { domain := "a.com"
      , finalUrl := some ("https://b.com/")
      , relatedDomains :=
          if ("a.com" : String) ∈ ["a.com", "b.com"] then ["a.com", "b.com"]
          else "a.com" :: ["a.com", "b.com"]
      , redirectChain := []
      , cached := false
      , status := "ok"
      , note := none
      , reason := none } :=
  (c7_marketing_redirect ("a.com") ("https://b.com/") ("marketing-redirect(https://b.com/)")
      { skip := true, reason := some ("marketing-redirect(https://b.com/)")
      , tryBrowser := false, finalUrl := some ("https://b.com/") }
      (fun _ => Except.ok
        { finalUrl := "https://b.com/", relatedDomains := ["a.com", "b.com"]
        , redirectChain := [] })
      rfl rfl (by decide) rfl (by decide)).1
    { finalUrl := "https://b.com/", relatedDomains := ["a.com", "b.com"], redirectChain := [] }
    rfl

/-- C7 counterexample: at the same concrete marketing-redirect scenario with a
successful browser scan, the handler's response carries no note at all, while
the claim requires note = marketing-redirect(https://b.com/); the note branch
only runs when the scan fails. -/
theorem c7_counterexample :
    (respondScan ("a.com")
      (scanDomainOnce ("a.com")
        { skip := true, reason := some ("marketing-redirect(https://b.com/)")
        , tryBrowser := false, finalUrl := some ("https://b.com/") }
        (fun _ => Except.ok
          { finalUrl := "https://b.com/", relatedDomains := ["a.com", "b.com"]
          , redirectChain := [] })).2).note = none ∧
    (respondScan ("a.com")
      (scanDomainOnce ("a.com")
        { skip := true, reason := some ("marketing-redirect(https://b.com/)")
        , tryBrowser := false, finalUrl := some ("https://b.com/") }
        (fun _ => Except.ok
          { finalUrl := "https://b.com/", relatedDomains := ["a.com", "b.com"]
          , redirectChain := [] })).2).status = "ok" ∧
    (none : Option String) ≠ some ("marketing-redirect(https://b.com/)") := by
  decide

/-- C8: amended redirect-loop behaviour.  With a redirect-loop precheck the
orchestrator always invokes the browser scan, whatever the tryBrowser flag
says (the flag is only logged); the skipped response with reason
redirect-loop is produced exactly when that browser scan fails. -/
theorem c8_redirect_loop_escalation (origin : String) (pre : PrecheckResult)
    (browserScan : String → Except String BrowserResult)
    (hr : pre.reason = some ("redirect-loop")) :
    (scanDomainOnce origin pre browserScan).1 = true ∧
    (∀ e, browserScan (("https://") ++ origin) = .error e →
      respondScan origin (scanDomainOnce origin pre browserScan).2 =
        { domain := origin
        , finalUrl := some (("https://") ++ origin)
        , relatedDomains := [origin]
        , redirectChain := []
        , cached := false
        , status := "skipped"
        , note := none
        , reason := some ("redirect-loop") }) := by
  have hcond1 : ¬ (pre.skip = true ∧
      ((some ("redirect-loop") : Option String) = some ("attachment") ∨
        strIsPrefixOf ("non-HTML") ("redirect-loop") = true)) := by
    rintro ⟨_, h1 | h1⟩
    · injection h1 with h2
      exact absurd h2 (by decide)
    · exact absurd h1 (by decide)
  have hcond2 : ¬ (pre.skip = true ∧
      strIsPrefixOf ("marketing-redirect") ("redirect-loop") = true ∧
      jsTruthy pre.finalUrl = true) := by
    rintro ⟨_, h1, _⟩
    exact absurd h1 (by decide)
  constructor
  · simp only [scanDomainOnce, hr, jsOrEmpty]
    rw [if_neg hcond1, if_neg hcond2]
    cases browserScan (("https://") ++ origin) <;> rfl
  · intro e herr
    simp only [scanDomainOnce, hr, jsOrEmpty]
    rw [if_neg hcond1, if_neg hcond2, herr]
    have hst : jsOrStr (some (("https://") ++ origin)) (("https://") ++ origin) =
        ("https://") ++ origin := by
      simp [jsOrStr, https_ne_empty origin]
    simp [respondScan, jsTruthy, jsOrEmpty, jsOrStr, hst]
    decide

/-- C8 witness: a concrete redirect-loop precheck whose browser scan fails,
showing the browser ran and the skipped response. -/
theorem c8_witness :
    (scanDomainOnce ("a.com")
      { skip := true, reason := some ("redirect-loop"), tryBrowser := true, finalUrl := none }
      (fun _ => (Except.error "boom" : Except String BrowserResult))).1 = true ∧
    respondScan ("a.com")
      (scanDomainOnce ("a.com")
        { skip := true, reason := some ("redirect-loop"), tryBrowser := true, finalUrl := none }
        (fun _ => (Except.error "boom" : Except String BrowserResult))).2 =
      { domain := "a.com"
      , finalUrl := some (("https://") ++ "a.com")
      , relatedDomains := ["a.com"]
      , redirectChain := []
      , cached := false
      , status := "skipped"
      , note := none
      , reason := some ("redirect-loop") } :=
  ⟨(c8_redirect_loop_escalation ("a.com")
      { skip := true, reason := some ("redirect-loop"), tryBrowser := true, finalUrl := none }
      (fun _ => (Except.error "boom" : Except String BrowserResult)) rfl).1,
   (c8_redirect_loop_escalation ("a.com")
      { skip := true, reason := some ("redirect-loop"), tryBrowser := true, finalUrl := none }
      (fun _ => (Except.error "boom" : Except String BrowserResult)) rfl).2 "boom" rfl⟩

/-- C8 counterexample: a redirect-loop precheck with tryBrowser = false (no
HTML hint) still reaches the browser scan, and when that scan succeeds the
response is a plain ok, not skipped — refuting both halves of the claim. -/
theorem c8_counterexample :
    (scanDomainOnce ("a.com")
      { skip := true, reason := some ("redirect-loop"), tryBrowser := false, finalUrl := none }
      (fun _ => Except.ok
        { finalUrl := "https://a.com/", relatedDomains := ["a.com"], redirectChain := [] })).1 =
      true ∧
    (respondScan ("a.com")
      (scanDomainOnce ("a.com")
        { skip := true, reason := some ("redirect-loop"), tryBrowser := false, finalUrl := none }
        (fun _ => Except.ok
          { finalUrl := "https://a.com/", relatedDomains := ["a.com"]
          , redirectChain := [] })).2).status = "ok" := by
  decide

theorem catch_some_ne {ta : String → Except Unit String} {s b : String}
    (h : jsTry (do let a ← ta s; pure (jsOrNullStr a)) (fun _ => .ok none) =
      Except.ok (some b)) : b ≠ "" := by
  cases ht : ta s with
  | ok a =>
    simp only [jsTry, bind, Except.bind, ht, pure, Except.pure] at h
    by_cases ha : a = ""
    · rw [jsOrNullStr, if_pos ha] at h
      cases h
    · rw [jsOrNullStr, if_neg ha] at h
      injection h with h1
      injection h1 with h2
      rw [← h2]
      exact ha
  | error e =>
    simp only [jsTry, bind, Except.bind, ht] at h
    cases h

theorem v2_some_ne_empty {uh ta : String → Except Unit String} {input : JsVal} {b : String}
    (h : normalizeDomain_v2 uh ta input = .ok (some b)) : b ≠ "" := by
  cases input with
  | str s0 =>
    by_cases h0 : s0 = ""
    · rw [h0] at h
      simp [normalizeDomain_v2] at h
    · simp only [normalizeDomain_v2, if_neg h0] at h
      cases hu : uh (withScheme (jsLower (jsTrim s0))) with
      | ok host =>
        cases ht : ta host with
        | ok a =>
          simp only [jsTry, bind, Except.bind, hu, ht, pure, Except.pure] at h
          by_cases ha : a = ""
          · rw [jsOrNullStr, if_pos ha] at h
            cases h
          · rw [jsOrNullStr, if_neg ha] at h
            injection h with h1
            injection h1 with h2
            rw [← h2]
            exact ha
        | error e =>
          rw [hu] at h
          simp only [bind, Except.bind, ht] at h
          exact catch_some_ne h
      | error e =>
        rw [hu] at h
        simp only [bind, Except.bind] at h
        exact catch_some_ne h
  | num n => simp [normalizeDomain_v2] at h
  | boolean bb => simp [normalizeDomain_v2] at h
  | nullV => simp [normalizeDomain_v2] at h
  | undefinedV => simp [normalizeDomain_v2] at h

/-- C5: amended normaliser checks.  A canonical BAD_DOMAIN (null result)
arises from an empty encoded result and from input that cannot be
IDNA-encoded: when the URL parse throws, or the encode of the parsed hostname
throws, and the raw-host fallback encode throws as well, both variants return
null through the nested catches; every hostname the canonical variant does
return is nonempty.  In contrast, the canonical variant applies no length
check at all — when the parse and the encode succeed it returns the encoded
hostname however long — while the hardened variant's URL branch additionally
rejects results longer than 253 characters. -/
theorem c5_normalize_checks (uh ta : String → Except Unit String) (s0 host a : String)
    (h0 : s0 ≠ "") :
    (uh (withScheme (jsLower (jsTrim s0))) = .ok host → ta host = .ok a →
      normalizeDomain_v2 uh ta (.str s0) = .ok (jsOrNullStr a) ∧
      normalizeDomain_v3 uh ta (.str s0) =
        .ok (if a = "" || decide (253 < a.length) then none else some a)) ∧
    (uh (withScheme (jsLower (jsTrim s0))) = .error () →
      ta (jsLower (jsTrim s0)) = .error () →
      normalizeDomain_v2 uh ta (.str s0) = .ok none ∧
      normalizeDomain_v3 uh ta (.str s0) = .ok none) ∧
    (uh (withScheme (jsLower (jsTrim s0))) = .ok host → ta host = .error () →
      ta (jsLower (jsTrim s0)) = .error () →
      normalizeDomain_v2 uh ta (.str s0) = .ok none ∧
      normalizeDomain_v3 uh ta (.str s0) = .ok none) ∧
    (∀ b, normalizeDomain_v2 uh ta (.str s0) = .ok (some b) → b ≠ "") ∧
    (∀ b, uh (withScheme (jsLower (jsTrim s0))) = .ok host → ta host = .ok a →
      normalizeDomain_v3 uh ta (.str s0) = .ok (some b) → b.length ≤ 253) := by
  refine ⟨?_, ?_, ?_, fun b hb => v2_some_ne_empty hb, ?_⟩
  · intro hu hta
    constructor
    · simp only [normalizeDomain_v2, if_neg h0, jsTry, bind, Except.bind, hu, hta, pure,
        Except.pure]
    · simp only [normalizeDomain_v3, if_neg h0, jsTry, bind, Except.bind, hu, hta, pure,
        Except.pure]
  · intro hu ht2
    constructor
    · simp only [normalizeDomain_v2, if_neg h0, jsTry, bind, Except.bind, hu, ht2]
    · simp only [normalizeDomain_v3, if_neg h0, jsTry, bind, Except.bind, hu, ht2]
  · intro hu ht1 ht2
    constructor
    · simp only [normalizeDomain_v2, if_neg h0, jsTry, bind, Except.bind, hu, ht1, ht2]
    · simp only [normalizeDomain_v3, if_neg h0, jsTry, bind, Except.bind, hu, ht1, ht2]
  · intro b hu hta hb
    have h3 : normalizeDomain_v3 uh ta (.str s0) =
        .ok (if a = "" || decide (253 < a.length) then none else some a) := by
      simp only [normalizeDomain_v3, if_neg h0, jsTry, bind, Except.bind, hu, hta, pure,
        Except.pure]
    rw [h3] at hb
    injection hb with hb2
    by_cases hc : (a = "" || decide (253 < a.length)) = true
    · rw [if_pos hc] at hb2
      cases hb2
    · rw [if_neg hc] at hb2
      injection hb2 with hb3
      simp only [Bool.or_eq_true, decide_eq_true_eq, not_or] at hc
      rw [← hb3]
      omega

/-- C5 witness: the checks exercised on the input ex.com — with the concrete
URL-hostname and IDNA stand-ins on the happy path, and with a throwing IDNA
encoder for the cannot-be-encoded path. -/
theorem c5_witness :
    (normalizeDomain_v2 hostOfHttpsUrl toASCIIAscii (.str ("ex.com")) =
        .ok (jsOrNullStr ("ex.com")) ∧
      normalizeDomain_v3 hostOfHttpsUrl toASCIIAscii (.str ("ex.com")) =
        .ok (if ("ex.com" : String) = "" || decide (253 < ("ex.com" : String).length) then none
          else some ("ex.com"))) ∧
    (normalizeDomain_v2 hostOfHttpsUrl (fun _ => Except.error ()) (.str ("ex.com")) =
        .ok none ∧
      normalizeDomain_v3 hostOfHttpsUrl (fun _ => Except.error ()) (.str ("ex.com")) =
        .ok none) :=
  ⟨(c5_normalize_checks hostOfHttpsUrl toASCIIAscii ("ex.com") ("ex.com") ("ex.com")
      (by decide)).1 rfl rfl,
   (c5_normalize_checks hostOfHttpsUrl (fun _ => Except.error ()) ("ex.com") ("ex.com")
      ("ex.com") (by decide)).2.2.1 rfl rfl rfl⟩

set_option maxRecDepth 8000 in
/-- C5 counterexample: a 254-character hostname of a's is returned unchanged
by the canonical normalizeDomain (the IDNA encoder is the identity on
all-ASCII input and the URL parser does not enforce DNS length limits), so an
input whose encoded hostname exceeds 253 octets is not rejected, refuting the
exactness of the BAD_DOMAIN condition on the canonical code. -/
theorem c5_counterexample :
    normalizeDomain_v2 hostOfHttpsUrl toASCIIAscii
        (.str (String.mk (List.replicate 254 'a'))) =
      .ok (some (String.mk (List.replicate 254 'a'))) ∧
    253 < (String.mk (List.replicate 254 'a')).length := by
  constructor
  · rfl
  · decide

theorem lookup_mem : ∀ {l : List (Char × Char)} {c d : Char},
    l.lookup c = some d → (c, d) ∈ l
  | [], _, _, h => by simp [List.lookup] at h
  | (a, b) :: t, c, d, h => by
    simp only [List.lookup] at h
    cases hk : c == a with
    | true =>
      rw [hk] at h
      injection h with h2
      have hca : c = a := eq_of_beq hk
      rw [hca, h2]
      exact List.mem_cons_self _ _
    | false =>
      rw [hk] at h
      exact List.mem_cons_of_mem _ (lookup_mem h)

theorem jsLowerChar_idem (c : Char) : jsLowerChar (jsLowerChar c) = jsLowerChar c := by
  cases h : lowerPairs.lookup c with
  | none =>
    have hc : jsLowerChar c = c := by
      unfold jsLowerChar
      rw [h]
    rw [hc]
    exact hc
  | some d =>
    have hc : jsLowerChar c = d := by
      unfold jsLowerChar
      rw [h]
    have h2 : (c, d) ∈ lowerPairs := lookup_mem h
    have hd : jsLowerChar d = d := by
      fin_cases h2 <;> rfl
    rw [hc, hd]

theorem jsLower_noUpper (s : String) : noUpper (jsLower s) := by
  unfold noUpper jsLower
  apply String.ext
  show (s.data.map jsLowerChar).map jsLowerChar = s.data.map jsLowerChar
  rw [List.map_map]
  exact List.map_congr_left (fun a _ => jsLowerChar_idem a)

theorem noUpper_data {s : String} (h : noUpper s) : s.data.map jsLowerChar = s.data := by
  exact congrArg String.data h

theorem noUpper_append {a b : String} (ha : noUpper a) (hb : noUpper b) :
    noUpper (a ++ b) := by
  unfold noUpper jsLower
  apply String.ext
  show ((a ++ b).data).map jsLowerChar = (a ++ b).data
  rw [String.data_append, List.map_append, noUpper_data ha, noUpper_data hb]

theorem mem_base_noUpper {uh : String → Except Unit String} {events : List String}
    {d : String} (h : d ∈ relatedDomainsOf uh events) : noUpper d := by
  have h2 := (List.mem_insertionSort _).mp h
  have h3 := (List.mem_filter.mp h2).1
  have h4 := List.mem_dedup.mp h3
  rcases List.mem_filterMap.mp h4 with ⟨u, _, hu⟩
  unfold extractDomain at hu
  cases he : uh u with
  | ok host =>
    rw [he] at hu
    injection hu with hq
    rw [← hq]
    exact jsLower_noUpper host
  | error e =>
    rw [he] at hu
    cases hu

theorem catch_noUpper {ta : String → Except Unit String} {s origin : String}
    (hta : ∀ x a, ta x = .ok a → noUpper x → noUpper a) (hs : noUpper s)
    (hn : jsTry (do let a ← ta s; pure (jsOrNullStr a)) (fun _ => .ok none) =
      Except.ok (some origin)) : noUpper origin := by
  cases ht : ta s with
  | ok a =>
    simp only [jsTry, bind, Except.bind, ht, pure, Except.pure] at hn
    by_cases ha : a = ""
    · rw [jsOrNullStr, if_pos ha] at hn
      cases hn
    · rw [jsOrNullStr, if_neg ha] at hn
      injection hn with h1
      injection h1 with h2
      rw [← h2]
      exact hta s a ht hs
  | error e =>
    simp only [jsTry, bind, Except.bind, ht] at hn
    cases hn

/-- C9: every element of relatedDomains of a successful scan is lowercase
(fixed by toLowerCase): observed hosts pass through the explicit lowercasing
of extractDomain, and the prepended origin comes out of normalizeDomain, which
lowercases its input before handing it to the URL parser and the IDNA
encoder; the hypotheses state that those two library functions preserve
lowercase strings, as the real ones do. -/
theorem c9_lowercase (uh ta : String → Except Unit String) (events : List String)
    (input : JsVal) (origin : String)
    (huh : ∀ x h, uh x = .ok h → noUpper x → noUpper h)
    (hta : ∀ x a, ta x = .ok a → noUpper x → noUpper a)
    (hn : normalizeDomain_v2 uh ta input = .ok (some origin)) :
    ∀ d ∈ scanOnceRelated uh events origin, noUpper d := by
  have horigin : noUpper origin := by
    cases input with
    | str s0 =>
      by_cases h0 : s0 = ""
      · rw [h0] at hn
        simp [normalizeDomain_v2] at hn
      · have hsl : noUpper (jsLower (jsTrim s0)) := jsLower_noUpper _
        have hws : noUpper (withScheme (jsLower (jsTrim s0))) := by
          unfold withScheme
          split
          · exact hsl
          · exact noUpper_append rfl hsl
        simp only [normalizeDomain_v2, if_neg h0] at hn
        cases hu : uh (withScheme (jsLower (jsTrim s0))) with
        | ok host =>
          cases ht : ta host with
          | ok a =>
            simp only [jsTry, bind, Except.bind, hu, ht, pure, Except.pure] at hn
            by_cases ha : a = ""
            · rw [jsOrNullStr, if_pos ha] at hn
              cases hn
            · rw [jsOrNullStr, if_neg ha] at hn
              injection hn with h1
              injection h1 with h2
              rw [← h2]
              exact hta host a ht (huh _ host hu hws)
          | error e =>
            rw [hu] at hn
            simp only [bind, Except.bind, ht] at hn
            exact catch_noUpper hta hsl hn
        | error e =>
          rw [hu] at hn
          simp only [bind, Except.bind] at hn
          exact catch_noUpper hta hsl hn
    | num n => simp [normalizeDomain_v2] at hn
    | boolean b => simp [normalizeDomain_v2] at hn
    | nullV => simp [normalizeDomain_v2] at hn
    | undefinedV => simp [normalizeDomain_v2] at hn
  intro d hd
  rcases mem_scanOnceRelated hd with h | h
  · rw [h]
    exact horigin
  · exact mem_base_noUpper h

/-- C9 witness: the theorem applied at identity-like library stand-ins and the
origin produced by the normaliser from the input ex.com. -/
theorem c9_witness : noUpper ("https://ex.com") :=
  c9_lowercase (fun x => Except.ok x) (fun x => Except.ok x) [] (.str ("ex.com"))
    ("https://ex.com")
    (fun x h hx hnx => by
      injection hx with h2
      rw [← h2]
      exact hnx)
    (fun x a hx hnx => by
      injection hx with h2
      rw [← h2]
      exact hnx)
    rfl
    ("https://ex.com") (by decide)

theorem jsTry_isOk {α : Type} (body : Except Unit α) (handler : Unit → Except Unit α)
    (h : ∀ u, ∃ r, handler u = .ok r) : ∃ r, jsTry body handler = .ok r := by
  cases body with
  | ok a => exact ⟨a, rfl⟩
  | error u =>
    rcases h u with ⟨r, hr⟩
    exact ⟨r, by simpa [jsTry] using hr⟩

/-- C10: both variants of normalizeDomain are total: whatever the input — a
non-string, the empty string, or a string on which the URL parser or the IDNA
encoder throws anywhere — the function returns a hostname string or null and
never propagates an exception, because every throwing library call sits under
a try/catch whose final handler returns null. -/
theorem c10_normalize_total (uh ta : String → Except Unit String) (input : JsVal) :
    (∃ r, normalizeDomain_v2 uh ta input = .ok r) ∧
    (∃ r, normalizeDomain_v3 uh ta input = .ok r) := by
  constructor
  all_goals
    cases input with
    | str s0 =>
      by_cases h0 : s0 = ""
      · exact ⟨none, by simp [normalizeDomain_v2, normalizeDomain_v3, h0]⟩
      · simp only [normalizeDomain_v2, normalizeDomain_v3, if_neg h0]
        exact jsTry_isOk _ _ (fun _ => jsTry_isOk _ _ (fun _ => ⟨none, rfl⟩))
    | num n => exact ⟨none, rfl⟩
    | boolean b => exact ⟨none, rfl⟩
    | nullV => exact ⟨none, rfl⟩
    | undefinedV => exact ⟨none, rfl⟩
